import Mathlib

/-!
Verification of the onetyped type classifier (packages/typescript/src/from-type.ts).

The classifier walks a host type graph through an introspection service.  We
embed the graph shallowly: a type descriptor is a record of the capability
flags and structural data the source reads, children are referenced by id
through an environment, and the recursive classifier is given explicit fuel so
that behaviour on cyclic graphs (which the host checker can produce) is
expressible.  A call returns
  none                  when the fuel runs out (models divergence),
  some (.error e)       when the source throws,
  some (.ok n)          when the source returns the schema node n.
-/

namespace Onetyped

/-- Identifier of a type descriptor in the type graph. -/
abbrev TyId := Nat

/-- A member property as the classifier sees it: name, the property type
already resolved at the location hint, and the SymbolFlags.Optional bit. -/
structure PropData where
  name : String
  ty : TyId
  optionalFlag : Bool
deriving DecidableEq

/-- A call signature: parameter types (resolved at the location hint) in
order, and the return type. -/
structure SigData where
  params : List TyId
  ret : TyId
deriving DecidableEq

/-- The value carried by a literal type: a scalar (string, number, boolean),
or TypeScript's pseudo-big-int record with a sign and base-10 digit string. -/
inductive LitValue where
  | str (s : String)
  | num (n : Int)
  | boolV (b : Bool)
  | pseudo (negative : Bool) (base10Value : String)
deriving DecidableEq

/-- One type descriptor: every query the source makes of a ts.Type through
the checker, as a field.  Flags are the capability flags of the data model;
properties, call signatures, type arguments and union/intersection
constituents reference further descriptors by id. -/
structure TyData where
  isString : Bool := false
  isNumber : Bool := false
  isBoolean : Bool := false
  isUnknown : Bool := false
  isLiteral : Bool := false
  litValue : LitValue := .str ""
  isAny : Bool := false
  isBigInt : Bool := false
  isObject : Bool := false
  isReference : Bool := false
  targetIsTuple : Bool := false
  properties : List PropData := []
  callSignatures : List SigData := []
  symbol : Option String := none
  typeArguments : List TyId := []
  isUnion : Bool := false
  isIntersection : Bool := false
  constituents : List TyId := []
  display : String := ""

/-- The type graph: what the introspection service answers for each id. -/
abbrev Env := TyId → TyData

/-- Value carried by a literal schema node (@onetyped/core literal). -/
inductive LitVal where
  | str (s : String)
  | num (n : Int)
  | boolV (b : Bool)
  | bigintV (i : Int)
deriving DecidableEq

/-- Schema nodes of @onetyped/core, as far as the classifier builds them. -/
inductive Node where
  | string
  | number
  | boolean
  | unknown
  | any
  | bigint
  | literal (v : LitVal)
  | date
  | array (element : Node)
  | set (element : Node)
  | record (key : Node) (value : Node)
  | map (key : Node) (value : Node)
  | tuple (elements : List Node)
  | object (props : List (String × Node))
  | func (args : List Node) (ret : Node)
  | union (elements : List Node)
  | inter (elements : List Node)
  | optional (inner : Node)

/-- Failure outcomes of the classifier.  The first two are the thrown
Error("Unknown symbol name: ...") and Error("Unknown type: ...").  The third
models the JavaScript TypeError raised when a named-generic branch indexes a
type-argument list that is too short and then dereferences undefined. -/
inductive ConvErr where
  | unknownSymbol (name : String)
  | unknownType (description : String)
  | missingTypeArgument
deriving DecidableEq

/-- Does the error correspond to one of the two documented unsupported-type
throw sites of the source? -/
def isUnsupportedTypeError : ConvErr → Bool
  | .unknownSymbol _ => true
  | .unknownType _ => true
  | .missingTypeArgument => false

/-- Result of a (possibly fuel-starved) classification of one thing. -/
abbrev ConvResult (α : Type) := Option (Except ConvErr α)

/-- Fold a base-10 digit character list into a natural number, as BigInt does
with the digit part of its string argument. -/
def decDigitsToNat (l : List Char) : Nat :=
  l.foldl (fun acc c => acc * 10 + (c.toNat - 48)) 0

/-- The JavaScript BigInt constructor on a decimal string with an optional
leading minus sign (the only shapes the source feeds it). -/
def jsBigInt (s : String) : Int :=
  match s.data with
  | [] => 0
  | c :: rest =>
      if c = '-' then -(decDigitsToNat rest : Int)
      else (decDigitsToNat (c :: rest) : Int)

/-- The literal branch of the source: a pseudo-big-int value (typeof value
=== 'object') is rebuilt with BigInt over the sign-prefixed digit string;
scalar values pass through unchanged. -/
def literalNodeValue : LitValue → LitVal
  | .pseudo neg ds => .bigintV (jsBigInt ((if neg then "-" else "") ++ ds))
  | .str s => .str s
  | .num n => .num n
  | .boolV b => .boolV b

/-- The optional wrapper applied to a property node when the property has the
optionality flag. -/
def wrapOptional (flag : Bool) (n : Node) : Node :=
  if flag then .optional n else n

/-- Classify each id in the list, left to right, stopping at the first
divergence or thrown error (JavaScript map semantics with a throwing
callback). -/
def mapConv (f : TyId → ConvResult Node) : List TyId → ConvResult (List Node)
  | [] => some (.ok [])
  | t :: ts =>
    match f t with
    | none => none
    | some (.error e) => some (.error e)
    | some (.ok n) =>
      match mapConv f ts with
      | none => none
      | some (.error e) => some (.error e)
      | some (.ok ns) => some (.ok (n :: ns))

/-- The tuple branch's property walk: a property named "length" is skipped
(mapped to undefined and filtered out) before any recursion; every other
property is classified and wrapped in optional when flagged. -/
def tupleElems (f : TyId → ConvResult Node) : List PropData → ConvResult (List Node)
  | [] => some (.ok [])
  | p :: ps =>
    if p.name = "length" then tupleElems f ps
    else
      match f p.ty with
      | none => none
      | some (.error e) => some (.error e)
      | some (.ok n) =>
        match tupleElems f ps with
        | none => none
        | some (.error e) => some (.error e)
        | some (.ok ns) => some (.ok (wrapOptional p.optionalFlag n :: ns))

/-- The object branch's property walk: each property yields a (name, node)
entry, the node wrapped in optional when flagged. -/
def propertyEntries (f : TyId → ConvResult Node) :
    List PropData → ConvResult (List (String × Node))
  | [] => some (.ok [])
  | p :: ps =>
    match f p.ty with
    | none => none
    | some (.error e) => some (.error e)
    | some (.ok n) =>
      match propertyEntries f ps with
      | none => none
      | some (.error e) => some (.error e)
      | some (.ok es) => some (.ok ((p.name, wrapOptional p.optionalFlag n) :: es))

/-- One call signature: classify the parameters in order, then the return
type, and build a function node. -/
def signatureNode (f : TyId → ConvResult Node) (s : SigData) : ConvResult Node :=
  match mapConv f s.params with
  | none => none
  | some (.error e) => some (.error e)
  | some (.ok args) =>
    match f s.ret with
    | none => none
    | some (.error e) => some (.error e)
    | some (.ok r) => some (.ok (.func args r))

/-- All call signatures, left to right. -/
def signatureNodes (f : TyId → ConvResult Node) : List SigData → ConvResult (List Node)
  | [] => some (.ok [])
  | s :: ss =>
    match signatureNode f s with
    | none => none
    | some (.error e) => some (.error e)
    | some (.ok n) =>
      match signatureNodes f ss with
      | none => none
      | some (.error e) => some (.error e)
      | some (.ok ns) => some (.ok (n :: ns))

/-- The Signature Converter (getNodeFromCallSignatures of the source): with
no signatures the result is absent; one signature yields its bare function
node; several yield a union of the function nodes in signature order. -/
def getNodeFromCallSignatures (f : TyId → ConvResult Node) (callSignatures : List SigData) :
    ConvResult (Option Node) :=
  if callSignatures.length > 0 then
    match signatureNodes f callSignatures with
    | none => none
    | some (.error e) => some (.error e)
    | some (.ok ns) =>
      match ns with
      | [n] => some (.ok (some n))
      | _ => some (.ok (some (.union ns)))
  else some (.ok none)

/-- The Type Classifier, fromType of the source, with explicit fuel.  The
branch structure and order follow the source line by line. -/
def fromType : Nat → Env → TyId → ConvResult Node
  | 0, _, _ => none
  | fuel + 1, env, t =>
    let d := env t
    if d.isString then some (.ok .string)
    else if d.isNumber then some (.ok .number)
    else if d.isBoolean then some (.ok .boolean)
    else if d.isUnknown then some (.ok .unknown)
    else if d.isLiteral then some (.ok (.literal (literalNodeValue d.litValue)))
    else if d.isAny then some (.ok .any)
    else if d.isBigInt then some (.ok .bigint)
    else if d.isObject then
      if d.isReference && d.targetIsTuple then
        match tupleElems (fun c => fromType fuel env c) d.properties with
        | none => none
        | some (.error e) => some (.error e)
        | some (.ok elems) => some (.ok (.tuple elems))
      else
        match propertyEntries (fun c => fromType fuel env c) d.properties with
        | none => none
        | some (.error e) => some (.error e)
        | some (.ok entries) =>
          match getNodeFromCallSignatures (fun c => fromType fuel env c) d.callSignatures with
          | none => none
          | some (.error e) => some (.error e)
          | some (.ok (some functionNode)) =>
            if entries.length = 0 then some (.ok functionNode)
            else some (.ok (.inter [functionNode, .object entries]))
          | some (.ok none) => some (.ok (.object entries))
    else
      match d.symbol with
      | some name =>
        if name = "Array" || name = "ReadonlyArray" then
          match d.typeArguments[0]? with
          | none => some (.error .missingTypeArgument)
          | some a0 =>
            match fromType fuel env a0 with
            | none => none
            | some (.error e) => some (.error e)
            | some (.ok n) => some (.ok (.array n))
        else if name = "Date" then some (.ok .date)
        else if name = "Set" then
          match d.typeArguments[0]? with
          | none => some (.error .missingTypeArgument)
          | some a0 =>
            match fromType fuel env a0 with
            | none => none
            | some (.error e) => some (.error e)
            | some (.ok n) => some (.ok (.set n))
        else if name = "Record" then
          match d.typeArguments[0]? with
          | none => some (.error .missingTypeArgument)
          | some a0 =>
            match fromType fuel env a0 with
            | none => none
            | some (.error e) => some (.error e)
            | some (.ok k) =>
              match d.typeArguments[1]? with
              | none => some (.error .missingTypeArgument)
              | some a1 =>
                match fromType fuel env a1 with
                | none => none
                | some (.error e) => some (.error e)
                | some (.ok v) => some (.ok (.record k v))
        else if name = "Map" then
          match d.typeArguments[0]? with
          | none => some (.error .missingTypeArgument)
          | some a0 =>
            match fromType fuel env a0 with
            | none => none
            | some (.error e) => some (.error e)
            | some (.ok k) =>
              match d.typeArguments[1]? with
              | none => some (.error .missingTypeArgument)
              | some a1 =>
                match fromType fuel env a1 with
                | none => none
                | some (.error e) => some (.error e)
                | some (.ok v) => some (.ok (.map k v))
        else some (.error (.unknownSymbol name))
      | none =>
        if d.isUnion then
          match mapConv (fun c => fromType fuel env c) d.constituents with
          | none => none
          | some (.error e) => some (.error e)
          | some (.ok ns) => some (.ok (.union ns))
        else if d.isIntersection then
          match mapConv (fun c => fromType fuel env c) d.constituents with
          | none => none
          | some (.error e) => some (.error e)
          | some (.ok ns) => some (.ok (.inter ns))
        else some (.error (.unknownType d.display))

/-- All seven capability flags tested before the object branch are clear. -/
abbrev primFlagsFalse (d : TyData) : Prop :=
  d.isString = false ∧ d.isNumber = false ∧ d.isBoolean = false ∧ d.isUnknown = false ∧
    d.isLiteral = false ∧ d.isAny = false ∧ d.isBigInt = false

/-- Control reaches the composite-object rule. -/
abbrev reachesObjectRule (d : TyData) : Prop :=
  primFlagsFalse d ∧ d.isObject = true

/-- Control reaches the nominal-symbol / union / intersection rules. -/
abbrev reachesSymbolRule (d : TyData) : Prop :=
  primFlagsFalse d ∧ d.isObject = false

/-- The function node built for one signature when every parameter and the
return type classify successfully. -/
def funcNodeOf (g : TyId → Node) (s : SigData) : Node :=
  .func (s.params.map g) (g s.ret)

/-- The ids a signature's classification touches. -/
def sigTyIds (s : SigData) : List TyId := s.params ++ [s.ret]

/-- The character of one decimal digit. -/
def digitChar (d : Nat) : Char := Char.ofNat (48 + d)

/-- Big-endian base-10 digits of a natural number (never empty). -/
def natDigitList (n : Nat) : List Nat :=
  if n < 10 then [n] else natDigitList (n / 10) ++ [n % 10]
  decreasing_by exact Nat.div_lt_self (by omega) (by omega)

/-- The canonical base-10 digit string of a natural number. -/
def natDecString (n : Nat) : String := ⟨(natDigitList n).map digitChar⟩

/-- Every id the classifier can recurse into from a descriptor. -/
def referencedIds (d : TyData) : List TyId :=
  d.properties.map (fun p => p.ty) ++ (d.callSignatures.map sigTyIds).flatten ++
    d.typeArguments ++ d.constituents

/-- The self-referential type graph: a single object type whose one property
has the type itself, which is what the host checker produces for a recursive
type declaration with a single self-typed property. -/
def cyclicEnv : Env := fun _ =>
  { isObject := true, properties := [⟨"self", 0, false⟩] }

def tupleWitnessEnv : Env := fun t =>
  if t = 0 then
    { isObject := true, isReference := true, targetIsTuple := true,
      properties := [⟨"0", 1, false⟩, ⟨"length", 2, false⟩, ⟨"1", 1, true⟩] }
  else { isNumber := true }

def callableWitnessEnv : Env := fun t =>
  if t = 0 then
    { isObject := true, properties := [⟨"a", 1, false⟩], callSignatures := [⟨[1], 1⟩] }
  else { isString := true }

def mapWitnessEnv : Env := fun t =>
  if t = 0 then { symbol := some "Map", typeArguments := [1, 2] }
  else if t = 1 then { isString := true }
  else { isNumber := true }

def priorityWitnessEnv : Env := fun _ =>
  { isString := true, isNumber := true, isObject := true, isUnion := true }

def bigintWitnessEnv : Env := fun _ => { isLiteral := true, litValue := .pseudo true "5" }

def missingArgEnv : Env := fun _ => { symbol := some "Array" }

def unknownSymbolEnv : Env := fun _ => { symbol := some "Promise" }

def flatWitnessEnv : Env := fun _ => { isString := true }

def emptyTupleEnv : Env := fun t =>
  if t = 0 then
    { isObject := true, isReference := true, targetIsTuple := true,
      properties := [⟨"length", 1, false⟩] }
  else { isNumber := true }

def unionWitnessEnv : Env := fun t =>
  if t = 0 then { isUnion := true, constituents := [1, 2] }
  else if t = 1 then { isString := true }
  else { isNumber := true }

def shortArgsEnv : Env := fun t =>
  if t = 0 then { symbol := some "Record", typeArguments := [1] }
  else { isString := true }

/-! Success characterizations of the list walks: when every recursive
classification succeeds, each walk returns the corresponding mapped list. -/
theorem mapConv_ok (f : TyId → ConvResult Node) (g : TyId → Node) :
    ∀ l : List TyId, (∀ c ∈ l, f c = some (.ok (g c))) →
      mapConv f l = some (.ok (l.map g))
  | [], _ => rfl
  | t :: ts, h => by
    have ht := h t (by simp)
    have hts := mapConv_ok f g ts (fun c hc => h c (by simp [hc]))
    simp [mapConv, ht, hts]

theorem propertyEntries_ok (f : TyId → ConvResult Node) (g : TyId → Node) :
    ∀ ps : List PropData, (∀ p ∈ ps, f p.ty = some (.ok (g p.ty))) →
      propertyEntries f ps =
        some (.ok (ps.map (fun p => (p.name, wrapOptional p.optionalFlag (g p.ty)))))
  | [], _ => rfl
  | p :: ps, h => by
    have hp := h p (by simp)
    have hps := propertyEntries_ok f g ps (fun q hq => h q (by simp [hq]))
    simp [propertyEntries, hp, hps]

theorem tupleElems_ok (f : TyId → ConvResult Node) (g : TyId → Node) :
    ∀ ps : List PropData, (∀ p ∈ ps, p.name ≠ "length" → f p.ty = some (.ok (g p.ty))) →
      tupleElems f ps =
        some (.ok ((ps.filter (fun p => p.name != "length")).map
          (fun p => wrapOptional p.optionalFlag (g p.ty))))
  | [], _ => rfl
  | p :: ps, h => by
    have hps := tupleElems_ok f g ps (fun q hq => h q (by simp [hq]))
    by_cases hl : p.name = "length"
    · simp [tupleElems, hl, hps]
    · have hp := h p (by simp) hl
      simp [tupleElems, hl, hp, hps]

theorem signatureNode_ok (f : TyId → ConvResult Node) (g : TyId → Node) (s : SigData)
    (h : ∀ c ∈ sigTyIds s, f c = some (.ok (g c))) :
    signatureNode f s = some (.ok (funcNodeOf g s)) := by
  have hps := mapConv_ok f g s.params (fun c hc => h c (by simp [sigTyIds, hc]))
  have hr := h s.ret (by simp [sigTyIds])
  simp [signatureNode, hps, hr, funcNodeOf]

theorem signatureNodes_ok (f : TyId → ConvResult Node) (g : TyId → Node) :
    ∀ sigs : List SigData, (∀ s ∈ sigs, ∀ c ∈ sigTyIds s, f c = some (.ok (g c))) →
      signatureNodes f sigs = some (.ok (sigs.map (funcNodeOf g)))
  | [], _ => rfl
  | s :: ss, h => by
    have hs := signatureNode_ok f g s (h s (by simp))
    have hss := signatureNodes_ok f g ss (fun q hq => h q (by simp [hq]))
    simp [signatureNodes, hs, hss]

theorem natDigitList_lt (n : Nat) : ∀ d ∈ natDigitList n, d < 10 := by
  induction n using Nat.strong_induction_on with
  | _ n ih =>
    by_cases h : n < 10
    · rw [natDigitList, if_pos h]
      simpa using h
    · rw [natDigitList, if_neg h]
      intro d hd
      rcases List.mem_append.1 hd with hd | hd
      · exact ih (n / 10) (Nat.div_lt_self (by omega) (by omega)) d hd
      · have : d = n % 10 := by simpa using hd
        subst this
        exact Nat.mod_lt _ (by omega)

theorem natDigitList_ne_nil (n : Nat) : natDigitList n ≠ [] := by
  by_cases h : n < 10
  · rw [natDigitList, if_pos h]
    simp
  · rw [natDigitList, if_neg h]
    simp

theorem natDigitList_foldl (n : Nat) :
    ∀ acc : Nat, (natDigitList n).foldl (fun a d => a * 10 + d) acc =
      acc * 10 ^ (natDigitList n).length + n := by
  induction n using Nat.strong_induction_on with
  | _ n ih =>
    intro acc
    by_cases h : n < 10
    · rw [natDigitList, if_pos h]
      simp
    · rw [natDigitList, if_neg h]
      rw [List.foldl_append, ih (n / 10) (Nat.div_lt_self (by omega) (by omega)) acc]
      simp [List.length_append, pow_succ]
      rw [Nat.add_mul, Nat.add_assoc]
      congr 1
      · ring
      · omega

theorem digitChar_toNat {d : Nat} (h : d < 10) : (digitChar d).toNat = 48 + d := by
  interval_cases d <;> rfl

theorem digitChar_ne_dash {d : Nat} (h : d < 10) : digitChar d ≠ '-' := by
  interval_cases d <;> decide

theorem foldl_digitChar (l : List Nat) (hl : ∀ d ∈ l, d < 10) :
    ∀ acc : Nat, (l.map digitChar).foldl (fun a c => a * 10 + (c.toNat - 48)) acc =
      l.foldl (fun a d => a * 10 + d) acc := by
  induction l with
  | nil => intro acc; rfl
  | cons d ds ih =>
    intro acc
    have hd : d < 10 := hl d (by simp)
    simp only [List.map_cons, List.foldl_cons]
    rw [digitChar_toNat hd, Nat.add_sub_cancel_left]
    exact ih (fun q hq => hl q (by simp [hq])) _

theorem decDigitsToNat_natDigits (n : Nat) :
    decDigitsToNat ((natDigitList n).map digitChar) = n := by
  unfold decDigitsToNat
  rw [foldl_digitChar _ (natDigitList_lt n), natDigitList_foldl n 0]
  simp

theorem jsBigInt_neg_natDecString (n : Nat) :
    jsBigInt ("-" ++ natDecString n) = -(n : Int) := by
  have hdata : ("-" ++ natDecString n).data = '-' :: (natDigitList n).map digitChar := by
    show ("-".data ++ (natDecString n).data) = _
    rfl
  unfold jsBigInt
  rw [hdata]
  simp [decDigitsToNat_natDigits n]

theorem jsBigInt_natDecString (n : Nat) :
    jsBigInt (natDecString n) = (n : Int) := by
  have hdata : (natDecString n).data = (natDigitList n).map digitChar := rfl
  unfold jsBigInt
  rw [hdata]
  cases hd : natDigitList n with
  | nil => exact absurd hd (natDigitList_ne_nil n)
  | cons d ds =>
    have hdlt : d < 10 := natDigitList_lt n d (by rw [hd]; simp)
    have hne : ¬(digitChar d = '-') := digitChar_ne_dash hdlt
    have hval := decDigitsToNat_natDigits n
    rw [hd] at hval
    simp only [List.map_cons] at hval
    simp only [List.map_cons, if_neg hne, hval]

theorem mem_referencedIds_prop (d : TyData) {p : PropData} (hp : p ∈ d.properties) :
    p.ty ∈ referencedIds d := by
  simp only [referencedIds, List.mem_append]
  exact Or.inl (Or.inl (Or.inl (List.mem_map.2 ⟨p, hp, rfl⟩)))

theorem mem_referencedIds_sig (d : TyData) {s : SigData} {c : TyId}
    (hs : s ∈ d.callSignatures) (hc : c ∈ sigTyIds s) : c ∈ referencedIds d := by
  simp only [referencedIds, List.mem_append]
  exact Or.inl (Or.inl (Or.inr (List.mem_flatten.2 ⟨sigTyIds s, List.mem_map.2 ⟨s, hs, rfl⟩, hc⟩)))

theorem mem_referencedIds_arg (d : TyData) {a : TyId} (ha : a ∈ d.typeArguments) :
    a ∈ referencedIds d := by
  simp only [referencedIds, List.mem_append]
  exact Or.inl (Or.inr ha)

theorem mem_referencedIds_constituent (d : TyData) {c : TyId} (hc : c ∈ d.constituents) :
    c ∈ referencedIds d := by
  simp only [referencedIds, List.mem_append]
  exact Or.inr hc

theorem mapConv_isSome (f : TyId → ConvResult Node) :
    ∀ l : List TyId, (∀ c ∈ l, (f c).isSome) → (mapConv f l).isSome
  | [], _ => rfl
  | t :: ts, h => by
    have ht := h t (by simp)
    have hts := mapConv_isSome f ts (fun c hc => h c (by simp [hc]))
    cases hft : f t with
    | none => rw [hft] at ht; simp at ht
    | some r =>
      cases r with
      | error e => simp [mapConv, hft]
      | ok n =>
        cases hmt : mapConv f ts with
        | none => rw [hmt] at hts; simp at hts
        | some r2 => cases r2 <;> simp [mapConv, hft, hmt]

theorem tupleElems_isSome (f : TyId → ConvResult Node) :
    ∀ ps : List PropData, (∀ p ∈ ps, (f p.ty).isSome) → (tupleElems f ps).isSome
  | [], _ => rfl
  | p :: ps, h => by
    have hp := h p (by simp)
    have hps := tupleElems_isSome f ps (fun q hq => h q (by simp [hq]))
    by_cases hl : p.name = "length"
    · simpa [tupleElems, hl] using hps
    · cases hfp : f p.ty with
      | none => rw [hfp] at hp; simp at hp
      | some r =>
        cases r with
        | error e => simp [tupleElems, hl, hfp]
        | ok n =>
          cases hmt : tupleElems f ps with
          | none => rw [hmt] at hps; simp at hps
          | some r2 => cases r2 <;> simp [tupleElems, hl, hfp, hmt]

theorem propertyEntries_isSome (f : TyId → ConvResult Node) :
    ∀ ps : List PropData, (∀ p ∈ ps, (f p.ty).isSome) → (propertyEntries f ps).isSome
  | [], _ => rfl
  | p :: ps, h => by
    have hp := h p (by simp)
    have hps := propertyEntries_isSome f ps (fun q hq => h q (by simp [hq]))
    cases hfp : f p.ty with
    | none => rw [hfp] at hp; simp at hp
    | some r =>
      cases r with
      | error e => simp [propertyEntries, hfp]
      | ok n =>
        cases hmt : propertyEntries f ps with
        | none => rw [hmt] at hps; simp at hps
        | some r2 => cases r2 <;> simp [propertyEntries, hfp, hmt]

theorem signatureNode_isSome (f : TyId → ConvResult Node) (s : SigData)
    (h : ∀ c ∈ sigTyIds s, (f c).isSome) : (signatureNode f s).isSome := by
  have hps := mapConv_isSome f s.params (fun c hc => h c (by simp [sigTyIds, hc]))
  have hr := h s.ret (by simp [sigTyIds])
  cases hmp : mapConv f s.params with
  | none => rw [hmp] at hps; simp at hps
  | some r =>
    cases r with
    | error e => simp [signatureNode, hmp]
    | ok args =>
      cases hfr : f s.ret with
      | none => rw [hfr] at hr; simp at hr
      | some r2 => cases r2 <;> simp [signatureNode, hmp, hfr]

theorem signatureNodes_isSome (f : TyId → ConvResult Node) :
    ∀ sigs : List SigData, (∀ s ∈ sigs, ∀ c ∈ sigTyIds s, (f c).isSome) →
      (signatureNodes f sigs).isSome
  | [], _ => rfl
  | s :: ss, h => by
    have hs := signatureNode_isSome f s (h s (by simp))
    have hss := signatureNodes_isSome f ss (fun q hq => h q (by simp [hq]))
    cases hfs : signatureNode f s with
    | none => rw [hfs] at hs; simp at hs
    | some r =>
      cases r with
      | error e => simp [signatureNodes, hfs]
      | ok n =>
        cases hms : signatureNodes f ss with
        | none => rw [hms] at hss; simp at hss
        | some r2 => cases r2 <;> simp [signatureNodes, hfs, hms]

theorem getNodeFromCallSignatures_isSome (f : TyId → ConvResult Node) (sigs : List SigData)
    (h : ∀ s ∈ sigs, ∀ c ∈ sigTyIds s, (f c).isSome) :
    (getNodeFromCallSignatures f sigs).isSome := by
  have hss := signatureNodes_isSome f sigs h
  unfold getNodeFromCallSignatures
  split
  · cases hms : signatureNodes f sigs with
    | none => rw [hms] at hss; simp at hss
    | some r =>
      cases r with
      | error e => simp [hms]
      | ok ns => rcases ns with _ | ⟨n, _ | ⟨m, ns⟩⟩ <;> simp [hms]
  · simp

theorem fromType_succ_isSome (fuel : Nat) (env : Env) (t : TyId)
    (h : ∀ c ∈ referencedIds (env t), (fromType fuel env c).isSome) :
    (fromType (fuel + 1) env t).isSome := by
  have hprops : ∀ p ∈ (env t).properties, (fromType fuel env p.ty).isSome :=
    fun p hp => h p.ty (mem_referencedIds_prop _ hp)
  have hsigs : ∀ s ∈ (env t).callSignatures, ∀ c ∈ sigTyIds s, (fromType fuel env c).isSome :=
    fun s hs c hc => h c (mem_referencedIds_sig _ hs hc)
  have hargs : ∀ (i : Nat) (a : TyId), (env t).typeArguments[i]? = some a →
      (fromType fuel env a).isSome :=
    fun _ a ha => h a (mem_referencedIds_arg _ (List.getElem?_mem ha))
  have hcons : ∀ c ∈ (env t).constituents, (fromType fuel env c).isSome :=
    fun c hc => h c (mem_referencedIds_constituent _ hc)
  have htup := tupleElems_isSome (fun c => fromType fuel env c) (env t).properties hprops
  have hpe := propertyEntries_isSome (fun c => fromType fuel env c) (env t).properties hprops
  have hgn := getNodeFromCallSignatures_isSome (fun c => fromType fuel env c)
    (env t).callSignatures hsigs
  have hmc := mapConv_isSome (fun c => fromType fuel env c) (env t).constituents hcons
  by_cases h1 : (env t).isString = true
  · simp [fromType, h1]
  by_cases h2 : (env t).isNumber = true
  · simp [fromType, h1, h2]
  by_cases h3 : (env t).isBoolean = true
  · simp [fromType, h1, h2, h3]
  by_cases h4 : (env t).isUnknown = true
  · simp [fromType, h1, h2, h3, h4]
  by_cases h5 : (env t).isLiteral = true
  · simp [fromType, h1, h2, h3, h4, h5]
  by_cases h6 : (env t).isAny = true
  · simp [fromType, h1, h2, h3, h4, h5, h6]
  by_cases h7 : (env t).isBigInt = true
  · simp [fromType, h1, h2, h3, h4, h5, h6, h7]
  by_cases h8 : (env t).isObject = true
  · by_cases h9 : ((env t).isReference && (env t).targetIsTuple) = true
    · cases htt : tupleElems (fun c => fromType fuel env c) (env t).properties with
      | none => rw [htt] at htup; simp at htup
      | some r =>
        cases r <;> simp [fromType, h1, h2, h3, h4, h5, h6, h7, h8, h9, htt]
    · cases hpp : propertyEntries (fun c => fromType fuel env c) (env t).properties with
      | none => rw [hpp] at hpe; simp at hpe
      | some r =>
        cases r with
        | error e => simp [fromType, h1, h2, h3, h4, h5, h6, h7, h8, h9, hpp]
        | ok entries =>
          cases hgg : getNodeFromCallSignatures (fun c => fromType fuel env c)
              (env t).callSignatures with
          | none => rw [hgg] at hgn; simp at hgn
          | some r2 =>
            cases r2 with
            | error e => simp [fromType, h1, h2, h3, h4, h5, h6, h7, h8, h9, hpp, hgg]
            | ok onode =>
              cases onode with
              | none => simp [fromType, h1, h2, h3, h4, h5, h6, h7, h8, h9, hpp, hgg]
              | some fn =>
                by_cases hlen : entries.length = 0 <;>
                  simp [fromType, h1, h2, h3, h4, h5, h6, h7, h8, h9, hpp, hgg, hlen]
  cases hsym : (env t).symbol with
  | some name =>
    by_cases hA : name = "Array" ∨ name = "ReadonlyArray"
    · cases hta : (env t).typeArguments[0]? with
      | none =>
        rcases hA with hA | hA <;>
          simp [fromType, h1, h2, h3, h4, h5, h6, h7, h8, hsym, hA, hta]
      | some a0 =>
        have ha0 := hargs 0 a0 hta
        cases hf0 : fromType fuel env a0 with
        | none => rw [hf0] at ha0; simp at ha0
        | some r =>
          rcases hA with hA | hA <;> cases r <;>
            simp [fromType, h1, h2, h3, h4, h5, h6, h7, h8, hsym, hA, hta, hf0]
    · push_neg at hA
      obtain ⟨hA1, hA2⟩ := hA
      by_cases hD : name = "Date"
      · simp [fromType, h1, h2, h3, h4, h5, h6, h7, h8, hsym, hA1, hA2, hD]
      by_cases hS : name = "Set"
      · cases hta : (env t).typeArguments[0]? with
        | none => simp [fromType, h1, h2, h3, h4, h5, h6, h7, h8, hsym, hA1, hA2, hD, hS, hta]
        | some a0 =>
          have ha0 := hargs 0 a0 hta
          cases hf0 : fromType fuel env a0 with
          | none => rw [hf0] at ha0; simp at ha0
          | some r =>
            cases r <;>
              simp [fromType, h1, h2, h3, h4, h5, h6, h7, h8, hsym, hA1, hA2, hD, hS, hta, hf0]
      by_cases hR : name = "Record"
      · cases hta : (env t).typeArguments[0]? with
        | none =>
          simp [fromType, h1, h2, h3, h4, h5, h6, h7, h8, hsym, hA1, hA2, hD, hS, hR, hta]
        | some a0 =>
          have ha0 := hargs 0 a0 hta
          cases hf0 : fromType fuel env a0 with
          | none => rw [hf0] at ha0; simp at ha0
          | some r =>
            cases r with
            | error e =>
              simp [fromType, h1, h2, h3, h4, h5, h6, h7, h8, hsym, hA1, hA2, hD, hS, hR, hta, hf0]
            | ok k =>
              cases htb : (env t).typeArguments[1]? with
              | none =>
                simp [fromType, h1, h2, h3, h4, h5, h6, h7, h8, hsym, hA1, hA2, hD, hS, hR,
                  hta, hf0, htb]
              | some a1 =>
                have ha1 := hargs 1 a1 htb
                cases hf1 : fromType fuel env a1 with
                | none => rw [hf1] at ha1; simp at ha1
                | some r2 =>
                  cases r2 <;>
                    simp [fromType, h1, h2, h3, h4, h5, h6, h7, h8, hsym, hA1, hA2, hD, hS, hR,
                      hta, hf0, htb, hf1]
      by_cases hM : name = "Map"
      · cases hta : (env t).typeArguments[0]? with
        | none =>
          simp [fromType, h1, h2, h3, h4, h5, h6, h7, h8, hsym, hA1, hA2, hD, hS, hR, hM, hta]
        | some a0 =>
          have ha0 := hargs 0 a0 hta
          cases hf0 : fromType fuel env a0 with
          | none => rw [hf0] at ha0; simp at ha0
          | some r =>
            cases r with
            | error e =>
              simp [fromType, h1, h2, h3, h4, h5, h6, h7, h8, hsym, hA1, hA2, hD, hS, hR, hM,
                hta, hf0]
            | ok k =>
              cases htb : (env t).typeArguments[1]? with
              | none =>
                simp [fromType, h1, h2, h3, h4, h5, h6, h7, h8, hsym, hA1, hA2, hD, hS, hR, hM,
                  hta, hf0, htb]
              | some a1 =>
                have ha1 := hargs 1 a1 htb
                cases hf1 : fromType fuel env a1 with
                | none => rw [hf1] at ha1; simp at ha1
                | some r2 =>
                  cases r2 <;>
                    simp [fromType, h1, h2, h3, h4, h5, h6, h7, h8, hsym, hA1, hA2, hD, hS, hR,
                      hM, hta, hf0, htb, hf1]
      simp [fromType, h1, h2, h3, h4, h5, h6, h7, h8, hsym, hA1, hA2, hD, hS, hR, hM]
  | none =>
    by_cases hu : (env t).isUnion = true
    · cases hmm : mapConv (fun c => fromType fuel env c) (env t).constituents with
      | none => rw [hmm] at hmc; simp at hmc
      | some r =>
        cases r <;> simp [fromType, h1, h2, h3, h4, h5, h6, h7, h8, hsym, hu, hmm]
    by_cases hi : (env t).isIntersection = true
    · cases hmm : mapConv (fun c => fromType fuel env c) (env t).constituents with
      | none => rw [hmm] at hmc; simp at hmc
      | some r =>
        cases r <;> simp [fromType, h1, h2, h3, h4, h5, h6, h7, h8, hsym, hu, hi, hmm]
    simp [fromType, h1, h2, h3, h4, h5, h6, h7, h8, hsym, hu, hi]

/-- Fuel sufficiency: on a type graph that admits a depth measure (every id a
descriptor references is strictly smaller), classification returns a result
as soon as the fuel exceeds the measure of the start id. -/
theorem fromType_terminates_acyclic (env : Env) (m : TyId → Nat)
    (hm : ∀ t : TyId, ∀ c ∈ referencedIds (env t), m c < m t) :
    ∀ (fuel : Nat) (t : TyId), m t < fuel → (fromType fuel env t).isSome := by
  intro fuel
  induction fuel with
  | zero => intro t ht; omega
  | succ fuel ih =>
    intro t ht
    exact fromType_succ_isSome fuel env t
      (fun c hc => ih c (by have := hm t c hc; omega))

theorem fromType_cyclicEnv_none : ∀ fuel : Nat, fromType fuel cyclicEnv 0 = none := by
  intro fuel
  induction fuel with
  | zero => rfl
  | succ fuel ih =>
    simp [fromType, cyclicEnv, propertyEntries, ih]

theorem natDecString_five : natDecString 5 = "5" := by
  rw [natDecString, natDigitList]
  norm_num
  rfl

/-- Claim C2: an object type that is a reference whose target is flagged as a
tuple is classified by the tuple path: member properties are enumerated in
order, the property literally named length is skipped, each remaining property
classifies and is wrapped in optional when its optionality flag is set, and
the result is tuple(elements) with exactly the non-length members in original
order — never the plain object path. -/
theorem claim_C2 (fuel : Nat) (env : Env) (t : TyId) (g : TyId → Node)
    (hre : reachesObjectRule (env t))
    (href : (env t).isReference = true)
    (htup : (env t).targetIsTuple = true)
    (hp : ∀ p ∈ (env t).properties, p.name ≠ "length" →
      fromType fuel env p.ty = some (.ok (g p.ty))) :
    fromType (fuel + 1) env t =
      some (.ok (.tuple (((env t).properties.filter (fun p => p.name != "length")).map
        (fun p => wrapOptional p.optionalFlag (g p.ty))))) := by
  obtain ⟨⟨h1, h2, h3, h4, h5, h6, h7⟩, h8⟩ := hre
  have hte := tupleElems_ok (fun c => fromType fuel env c) g (env t).properties hp
  simp [fromType, h1, h2, h3, h4, h5, h6, h7, h8, href, htup, hte]

/-- Witness for C2: a tuple reference with a length property and an optional member. -/
theorem claim_C2_witness :
    fromType 2 tupleWitnessEnv 0 = some (.ok (.tuple [.number, .optional .number])) :=
  claim_C2 1 tupleWitnessEnv 0 (fun _ => .number)
    (by refine ⟨⟨?_, ?_, ?_, ?_, ?_, ?_, ?_⟩, ?_⟩ <;> rfl) rfl rfl
    (by
      intro p hp hn
      simp only [tupleWitnessEnv] at hp
      simp at hp
      rcases hp with rfl | rfl | rfl <;> rfl)

/-- Claim C1: for a type that reaches the object rule (earlier capability flags
clear, is-object set) and is not a tuple reference, once every property type
classifies, the result combines properties and call signatures exactly as
specified: with no call signatures, object(propertyMap) with the properties in
reported order and optional wrapping; a Signature Converter result with zero
properties is returned directly; with at least one property it is
intersection of the signature result and object(propertyMap). -/
theorem claim_C1 (fuel : Nat) (env : Env) (t : TyId) (g : TyId → Node)
    (hre : reachesObjectRule (env t))
    (hnt : ((env t).isReference && (env t).targetIsTuple) = false)
    (hp : ∀ p ∈ (env t).properties, fromType fuel env p.ty = some (.ok (g p.ty))) :
    ((env t).callSignatures = [] →
      fromType (fuel + 1) env t = some (.ok (.object ((env t).properties.map
        (fun p => (p.name, wrapOptional p.optionalFlag (g p.ty)))))))
    ∧ (∀ fn : Node,
        getNodeFromCallSignatures (fun c => fromType fuel env c) (env t).callSignatures =
          some (.ok (some fn)) →
        ((env t).properties = [] → fromType (fuel + 1) env t = some (.ok fn))
        ∧ ((env t).properties ≠ [] →
            fromType (fuel + 1) env t = some (.ok (.inter [fn,
              .object ((env t).properties.map
                (fun p => (p.name, wrapOptional p.optionalFlag (g p.ty))))])))) := by
  obtain ⟨⟨h1, h2, h3, h4, h5, h6, h7⟩, h8⟩ := hre
  have hpe := propertyEntries_ok (fun c => fromType fuel env c) g (env t).properties hp
  refine ⟨fun hcs => ?_, fun fn hfn => ⟨fun hprops => ?_, fun hprops => ?_⟩⟩
  · simp [fromType, h1, h2, h3, h4, h5, h6, h7, h8, hnt, hpe, hcs, getNodeFromCallSignatures]
  · simp [fromType, h1, h2, h3, h4, h5, h6, h7, h8, hnt, hfn, hprops, propertyEntries]
  · simp [fromType, h1, h2, h3, h4, h5, h6, h7, h8, hnt, hpe, hfn, hprops]

/-- Witness for C1: a callable type with one property. -/
theorem claim_C1_witness :
    fromType 2 callableWitnessEnv 0 =
      some (.ok (.inter [.func [.string] .string, .object [("a", .string)]])) :=
  ((claim_C1 1 callableWitnessEnv 0 (fun _ => .string)
      (by refine ⟨⟨?_, ?_, ?_, ?_, ?_, ?_, ?_⟩, ?_⟩ <;> rfl) rfl
      (by intro p hp; simp [callableWitnessEnv] at hp; subst hp; rfl)).2
    (.func [.string] .string) rfl).2 (by simp [callableWitnessEnv])

/-- Claim C3: the Signature Converter returns absent for empty input; each
signature classifies its parameters in order and its return type into a
function node; exactly one signature yields the bare function node, and two or
more yield a union of the function nodes in signature order. -/
theorem claim_C3 (f : TyId → ConvResult Node) (g : TyId → Node) :
    getNodeFromCallSignatures f [] = some (.ok none)
    ∧ (∀ s : SigData, (∀ c ∈ sigTyIds s, f c = some (.ok (g c))) →
        getNodeFromCallSignatures f [s] =
          some (.ok (some (.func (s.params.map g) (g s.ret)))))
    ∧ (∀ sigs : List SigData, 2 ≤ sigs.length →
        (∀ s ∈ sigs, ∀ c ∈ sigTyIds s, f c = some (.ok (g c))) →
        getNodeFromCallSignatures f sigs =
          some (.ok (some (.union (sigs.map (funcNodeOf g)))))) := by
  refine ⟨rfl, fun s hs => ?_, fun sigs hlen hs => ?_⟩
  · have h1 := signatureNodes_ok f g [s] (by simpa using hs)
    simp [getNodeFromCallSignatures, h1, funcNodeOf]
  · have h1 := signatureNodes_ok f g sigs hs
    rcases sigs with _ | ⟨s1, _ | ⟨s2, rest⟩⟩
    · simp at hlen
    · simp at hlen
    · simp only [getNodeFromCallSignatures, h1]
      simp

/-- Witness for C3: one call signature with one parameter. -/
theorem claim_C3_witness :
    getNodeFromCallSignatures (fun _ => some (.ok .string)) [⟨[0], 0⟩] =
      some (.ok (some (.func [.string] .string))) :=
  (claim_C3 (fun _ => some (.ok .string)) (fun _ => .string)).2.1 ⟨[0], 0⟩
    (fun _ _ => rfl)

/-- Claim C4: named generics: Array and ReadonlyArray yield array of the
classified first type argument, Set yields set of it, Record yields record of
the classified first and second, Map yields map of them, and Date yields
date() regardless of type arguments. -/
theorem claim_C4 (fuel : Nat) (env : Env) (t : TyId)
    (hre : reachesSymbolRule (env t)) :
    (∀ (a0 : TyId) (rest : List TyId) (k : Node), (env t).symbol = some "Array" →
      (env t).typeArguments = a0 :: rest → fromType fuel env a0 = some (.ok k) →
      fromType (fuel + 1) env t = some (.ok (.array k)))
    ∧ (∀ (a0 : TyId) (rest : List TyId) (k : Node), (env t).symbol = some "ReadonlyArray" →
        (env t).typeArguments = a0 :: rest → fromType fuel env a0 = some (.ok k) →
        fromType (fuel + 1) env t = some (.ok (.array k)))
    ∧ (∀ (a0 : TyId) (rest : List TyId) (k : Node), (env t).symbol = some "Set" →
        (env t).typeArguments = a0 :: rest → fromType fuel env a0 = some (.ok k) →
        fromType (fuel + 1) env t = some (.ok (.set k)))
    ∧ (∀ (a0 a1 : TyId) (rest : List TyId) (k v : Node), (env t).symbol = some "Record" →
        (env t).typeArguments = a0 :: a1 :: rest → fromType fuel env a0 = some (.ok k) →
        fromType fuel env a1 = some (.ok v) →
        fromType (fuel + 1) env t = some (.ok (.record k v)))
    ∧ (∀ (a0 a1 : TyId) (rest : List TyId) (k v : Node), (env t).symbol = some "Map" →
        (env t).typeArguments = a0 :: a1 :: rest → fromType fuel env a0 = some (.ok k) →
        fromType fuel env a1 = some (.ok v) →
        fromType (fuel + 1) env t = some (.ok (.map k v)))
    ∧ ((env t).symbol = some "Date" → fromType (fuel + 1) env t = some (.ok .date)) := by
  obtain ⟨⟨h1, h2, h3, h4, h5, h6, h7⟩, h8⟩ := hre
  refine ⟨fun a0 rest k hsym hta hf0 => ?_, fun a0 rest k hsym hta hf0 => ?_,
    fun a0 rest k hsym hta hf0 => ?_, fun a0 a1 rest k v hsym hta hf0 hf1 => ?_,
    fun a0 a1 rest k v hsym hta hf0 hf1 => ?_, fun hsym => ?_⟩
  · simp [fromType, h1, h2, h3, h4, h5, h6, h7, h8, hsym, hta, hf0]
  · simp [fromType, h1, h2, h3, h4, h5, h6, h7, h8, hsym, hta, hf0]
  · simp [fromType, h1, h2, h3, h4, h5, h6, h7, h8, hsym, hta, hf0]
  · simp [fromType, h1, h2, h3, h4, h5, h6, h7, h8, hsym, hta, hf0, hf1]
  · simp [fromType, h1, h2, h3, h4, h5, h6, h7, h8, hsym, hta, hf0, hf1]
  · simp [fromType, h1, h2, h3, h4, h5, h6, h7, h8, hsym]

/-- Witness for C4: a Map with string keys and number values. -/
theorem claim_C4_witness :
    fromType 2 mapWitnessEnv 0 = some (.ok (.map .string .number)) :=
  (claim_C4 1 mapWitnessEnv 0
      (by refine ⟨⟨?_, ?_, ?_, ?_, ?_, ?_, ?_⟩, ?_⟩ <;> rfl)).2.2.2.2.1
    1 2 [] .string .number rfl rfl rfl rfl

/-- Claim C5: dispatch follows the documented priority order with first match
winning: each primitive branch fires when its flag is set and all earlier
flags are clear, whatever the later flags; the literal branch beats is-any;
the object rule beats the nominal-symbol rule (conjunct 8 constrains neither
the symbol nor the union flags); the nominal symbol beats is-union, and
is-union beats is-intersection.  In particular a type whose only recognized
capability flag is one primitive flag returns the matching primitive node. -/
theorem claim_C5 (fuel : Nat) (env : Env) (t : TyId) :
    ((env t).isString = true → fromType (fuel + 1) env t = some (.ok .string))
    ∧ ((env t).isString = false → (env t).isNumber = true →
        fromType (fuel + 1) env t = some (.ok .number))
    ∧ ((env t).isString = false → (env t).isNumber = false → (env t).isBoolean = true →
        fromType (fuel + 1) env t = some (.ok .boolean))
    ∧ ((env t).isString = false → (env t).isNumber = false → (env t).isBoolean = false →
        (env t).isUnknown = true → fromType (fuel + 1) env t = some (.ok .unknown))
    ∧ ((env t).isString = false → (env t).isNumber = false → (env t).isBoolean = false →
        (env t).isUnknown = false → (env t).isLiteral = true →
        fromType (fuel + 1) env t = some (.ok (.literal (literalNodeValue (env t).litValue))))
    ∧ ((env t).isString = false → (env t).isNumber = false → (env t).isBoolean = false →
        (env t).isUnknown = false → (env t).isLiteral = false → (env t).isAny = true →
        fromType (fuel + 1) env t = some (.ok .any))
    ∧ ((env t).isString = false → (env t).isNumber = false → (env t).isBoolean = false →
        (env t).isUnknown = false → (env t).isLiteral = false → (env t).isAny = false →
        (env t).isBigInt = true → fromType (fuel + 1) env t = some (.ok .bigint))
    ∧ (primFlagsFalse (env t) → (env t).isObject = true →
        ((env t).isReference && (env t).targetIsTuple) = false →
        (env t).properties = [] → (env t).callSignatures = [] →
        fromType (fuel + 1) env t = some (.ok (.object [])))
    ∧ (reachesSymbolRule (env t) → ∀ nm : String, (env t).symbol = some nm →
        nm ≠ "Array" → nm ≠ "ReadonlyArray" → nm ≠ "Date" → nm ≠ "Set" → nm ≠ "Record" →
        nm ≠ "Map" → fromType (fuel + 1) env t = some (.error (.unknownSymbol nm)))
    ∧ (reachesSymbolRule (env t) → (env t).symbol = none → (env t).isUnion = true →
        ∀ (c : TyId) (k : Node), (env t).constituents = [c] →
        fromType fuel env c = some (.ok k) →
        fromType (fuel + 1) env t = some (.ok (.union [k]))) := by
  refine ⟨fun f1 => ?_, fun f1 f2 => ?_, fun f1 f2 f3 => ?_, fun f1 f2 f3 f4 => ?_,
    fun f1 f2 f3 f4 f5 => ?_, fun f1 f2 f3 f4 f5 f6 => ?_, fun f1 f2 f3 f4 f5 f6 f7 => ?_,
    fun hpf f8 f9 f10 f11 => ?_, fun hre nm hsym n1 n2 n3 n4 n5 n6 => ?_,
    fun hre hsym f8 c k hc hk => ?_⟩
  · simp [fromType, f1]
  · simp [fromType, f1, f2]
  · simp [fromType, f1, f2, f3]
  · simp [fromType, f1, f2, f3, f4]
  · simp [fromType, f1, f2, f3, f4, f5]
  · simp [fromType, f1, f2, f3, f4, f5, f6]
  · simp [fromType, f1, f2, f3, f4, f5, f6, f7]
  · obtain ⟨h1, h2, h3, h4, h5, h6, h7⟩ := hpf
    simp [fromType, h1, h2, h3, h4, h5, h6, h7, f8, f9, f10, f11, propertyEntries,
      getNodeFromCallSignatures]
  · obtain ⟨⟨h1, h2, h3, h4, h5, h6, h7⟩, h8⟩ := hre
    simp [fromType, h1, h2, h3, h4, h5, h6, h7, h8, hsym, n1, n2, n3, n4, n5, n6]
  · obtain ⟨⟨h1, h2, h3, h4, h5, h6, h7⟩, h8⟩ := hre
    simp [fromType, h1, h2, h3, h4, h5, h6, h7, h8, hsym, f8, hc, hk, mapConv]

/-- Witness for C5: is-string wins over number, object and union flags. -/
theorem claim_C5_witness :
    fromType 1 priorityWitnessEnv 0 = some (.ok .string) :=
  (claim_C5 0 priorityWitnessEnv 0).1 rfl

/-- Claim C6: literal classification preserves the exact scalar value for
string, number and boolean literals, and reconstructs a pseudo-big-int value
(sign flag plus base-10 digit string) into the exact signed integer before
wrapping it in literal. -/
theorem claim_C6 (fuel : Nat) (env : Env) (t : TyId)
    (f1 : (env t).isString = false) (f2 : (env t).isNumber = false)
    (f3 : (env t).isBoolean = false) (f4 : (env t).isUnknown = false)
    (f5 : (env t).isLiteral = true) :
    (∀ s : String, (env t).litValue = .str s →
      fromType (fuel + 1) env t = some (.ok (.literal (.str s))))
    ∧ (∀ n : Int, (env t).litValue = .num n →
        fromType (fuel + 1) env t = some (.ok (.literal (.num n))))
    ∧ (∀ b : Bool, (env t).litValue = .boolV b →
        fromType (fuel + 1) env t = some (.ok (.literal (.boolV b))))
    ∧ (∀ (neg : Bool) (n : Nat), (env t).litValue = .pseudo neg (natDecString n) →
        fromType (fuel + 1) env t =
          some (.ok (.literal (.bigintV (if neg then -(n : Int) else (n : Int)))))) := by
  refine ⟨fun s hv => ?_, fun n hv => ?_, fun b hv => ?_, fun neg n hv => ?_⟩
  · simp [fromType, f1, f2, f3, f4, f5, hv, literalNodeValue]
  · simp [fromType, f1, f2, f3, f4, f5, hv, literalNodeValue]
  · simp [fromType, f1, f2, f3, f4, f5, hv, literalNodeValue]
  · cases neg
    · simp [fromType, f1, f2, f3, f4, f5, hv, literalNodeValue, jsBigInt_natDecString]
    · simp [fromType, f1, f2, f3, f4, f5, hv, literalNodeValue, jsBigInt_neg_natDecString]

/-- Witness for C6: the pseudo-big-int with sign and digit string 5 gives -5. -/
theorem claim_C6_witness :
    fromType 1 bigintWitnessEnv 0 = some (.ok (.literal (.bigintV (-5)))) :=
  (claim_C6 0 bigintWitnessEnv 0 rfl rfl rfl rfl rfl).2.2.2 true 5
    (by rw [natDecString_five]; rfl)

/-- Claim C7 fails as stated: a type carrying the nominal symbol Array with an
empty type-argument list makes classification fail with the
missing-type-argument runtime error, which is not one of the two
unsupported-type errors the claim says are the only failures. -/
theorem claim_C7_counterexample :
    fromType 1 missingArgEnv 0 = some (.error .missingTypeArgument)
    ∧ isUnsupportedTypeError .missingTypeArgument = false :=
  ⟨rfl, rfl⟩

/-- Claim C7 (amended): classification raises its unsupported-type errors in
exactly the two documented cases — an unrecognized nominal symbol name,
carrying the name, and a type matching no recognized shape, carrying the
printable description — and additionally fails with a runtime type error when
a named-generic branch accesses a missing type argument; failures of
constituent classifications propagate unchanged to the caller (shown for
union constituents, object properties and array type arguments). -/
theorem claim_C7_amended (fuel : Nat) (env : Env) (t : TyId) :
    (reachesSymbolRule (env t) → ∀ nm : String, (env t).symbol = some nm →
      nm ≠ "Array" → nm ≠ "ReadonlyArray" → nm ≠ "Date" → nm ≠ "Set" → nm ≠ "Record" →
      nm ≠ "Map" → fromType (fuel + 1) env t = some (.error (.unknownSymbol nm)))
    ∧ (reachesSymbolRule (env t) → (env t).symbol = none → (env t).isUnion = false →
        (env t).isIntersection = false →
        fromType (fuel + 1) env t = some (.error (.unknownType (env t).display)))
    ∧ (reachesSymbolRule (env t) → (env t).symbol = none → (env t).isUnion = true →
        ∀ (c : TyId) (rest : List TyId) (e : ConvErr), (env t).constituents = c :: rest →
        fromType fuel env c = some (.error e) →
        fromType (fuel + 1) env t = some (.error e))
    ∧ (reachesObjectRule (env t) → ((env t).isReference && (env t).targetIsTuple) = false →
        ∀ (p : PropData) (rest : List PropData) (e : ConvErr),
        (env t).properties = p :: rest → fromType fuel env p.ty = some (.error e) →
        fromType (fuel + 1) env t = some (.error e))
    ∧ (reachesSymbolRule (env t) → (env t).symbol = some "Array" →
        ∀ (a0 : TyId) (rest : List TyId) (e : ConvErr), (env t).typeArguments = a0 :: rest →
        fromType fuel env a0 = some (.error e) →
        fromType (fuel + 1) env t = some (.error e)) := by
  refine ⟨fun hre nm hsym n1 n2 n3 n4 n5 n6 => ?_, fun hre hsym hu hi => ?_,
    fun hre hsym hu c rest e hc he => ?_, fun hre hnt p rest e hp he => ?_,
    fun hre hsym a0 rest e hta he => ?_⟩
  · obtain ⟨⟨h1, h2, h3, h4, h5, h6, h7⟩, h8⟩ := hre
    simp [fromType, h1, h2, h3, h4, h5, h6, h7, h8, hsym, n1, n2, n3, n4, n5, n6]
  · obtain ⟨⟨h1, h2, h3, h4, h5, h6, h7⟩, h8⟩ := hre
    simp [fromType, h1, h2, h3, h4, h5, h6, h7, h8, hsym, hu, hi]
  · obtain ⟨⟨h1, h2, h3, h4, h5, h6, h7⟩, h8⟩ := hre
    simp [fromType, h1, h2, h3, h4, h5, h6, h7, h8, hsym, hu, hc, he, mapConv]
  · obtain ⟨⟨h1, h2, h3, h4, h5, h6, h7⟩, h8⟩ := hre
    simp [fromType, h1, h2, h3, h4, h5, h6, h7, h8, hnt, hp, he, propertyEntries]
  · obtain ⟨⟨h1, h2, h3, h4, h5, h6, h7⟩, h8⟩ := hre
    simp [fromType, h1, h2, h3, h4, h5, h6, h7, h8, hsym, hta, he]

/-- Witness for the amended C7: an unrecognized symbol name fails with it. -/
theorem claim_C7_witness :
    fromType 1 unknownSymbolEnv 0 = some (.error (.unknownSymbol "Promise")) :=
  (claim_C7_amended 0 unknownSymbolEnv 0).1
    (by refine ⟨⟨?_, ?_, ?_, ?_, ?_, ?_, ?_⟩, ?_⟩ <;> rfl) "Promise" rfl
    (by decide) (by decide) (by decide) (by decide) (by decide) (by decide)

/-- Claim C8: the classifier has no recursion guard: on every type graph that
admits a depth measure (every acyclic graph of finite nesting depth)
classification returns once the fuel exceeds the depth of the start node, and
on the self-referential graph cyclicEnv it returns no result however much
fuel it is given. -/
theorem claim_C8 :
    (∀ (env : Env) (m : TyId → Nat), (∀ t : TyId, ∀ c ∈ referencedIds (env t), m c < m t) →
      ∀ (fuel : Nat) (t : TyId), m t < fuel → (fromType fuel env t).isSome = true)
    ∧ (∀ fuel : Nat, fromType fuel cyclicEnv 0 = none) :=
  ⟨fromType_terminates_acyclic, fromType_cyclicEnv_none⟩

/-- Witness for C8: a flat graph returns; the cyclic graph never does. -/
theorem claim_C8_witness :
    (fromType 1 flatWitnessEnv 0).isSome = true ∧ fromType 5 cyclicEnv 0 = none :=
  ⟨claim_C8.1 flatWitnessEnv (fun _ => 0)
      (by intro t c hc; simp [flatWitnessEnv, referencedIds] at hc) 1 0 (by decide),
    claim_C8.2 5⟩

/-- Claim C9 fails as stated: classifying the empty-tuple reference, whose
only member property is named length, invokes the tuple builder with an empty
element list. -/
theorem claim_C9_counterexample :
    fromType 2 emptyTupleEnv 0 = some (.ok (.tuple [])) := rfl

/-- Claim C9 (amended): union and intersection nodes built from constituent
lists are nonempty whenever the constituent list is, overload unions always
carry at least two function nodes, and optional wraps exactly one node; a
tuple node is nonempty whenever some member property is not named length —
but the tuple builder is invoked with an empty list for a length-only tuple
reference. -/
theorem claim_C9_amended (fuel : Nat) (env : Env) (t : TyId) (g : TyId → Node) :
    (reachesObjectRule (env t) → (env t).isReference = true → (env t).targetIsTuple = true →
      (∀ p ∈ (env t).properties, p.name ≠ "length" →
        fromType fuel env p.ty = some (.ok (g p.ty))) →
      (∃ p ∈ (env t).properties, p.name ≠ "length") →
      ∃ elems : List Node, fromType (fuel + 1) env t = some (.ok (.tuple elems)) ∧ elems ≠ [])
    ∧ (reachesSymbolRule (env t) → (env t).symbol = none → (env t).isUnion = true →
        (∀ c ∈ (env t).constituents, fromType fuel env c = some (.ok (g c))) →
        (env t).constituents ≠ [] →
        fromType (fuel + 1) env t = some (.ok (.union ((env t).constituents.map g)))
        ∧ (env t).constituents.map g ≠ [])
    ∧ (reachesSymbolRule (env t) → (env t).symbol = none → (env t).isUnion = false →
        (env t).isIntersection = true →
        (∀ c ∈ (env t).constituents, fromType fuel env c = some (.ok (g c))) →
        (env t).constituents ≠ [] →
        fromType (fuel + 1) env t = some (.ok (.inter ((env t).constituents.map g)))
        ∧ (env t).constituents.map g ≠ [])
    ∧ (∀ sigs : List SigData, 2 ≤ sigs.length →
        (∀ s ∈ sigs, ∀ c ∈ sigTyIds s, fromType fuel env c = some (.ok (g c))) →
        getNodeFromCallSignatures (fun c => fromType fuel env c) sigs =
          some (.ok (some (.union (sigs.map (funcNodeOf g)))))
        ∧ 2 ≤ (sigs.map (funcNodeOf g)).length)
    ∧ (∀ n : Node, wrapOptional true n = .optional n) := by
  refine ⟨fun hre href htup hp ⟨p, hpmem, hpne⟩ => ?_, fun hre hsym hu hc hne => ?_,
    fun hre hsym hu hi hc hne => ?_, fun sigs hlen hs => ?_, fun n => rfl⟩
  · obtain ⟨⟨h1, h2, h3, h4, h5, h6, h7⟩, h8⟩ := hre
    have hte := tupleElems_ok (fun c => fromType fuel env c) g (env t).properties hp
    refine ⟨((env t).properties.filter (fun q => q.name != "length")).map
      (fun q => wrapOptional q.optionalFlag (g q.ty)), ?_, ?_⟩
    · simp [fromType, h1, h2, h3, h4, h5, h6, h7, h8, href, htup, hte]
    · have hmem : p ∈ (env t).properties.filter (fun q => q.name != "length") :=
        List.mem_filter.2 ⟨hpmem, by simpa using hpne⟩
      intro hcontra
      rw [List.map_eq_nil_iff] at hcontra
      rw [hcontra] at hmem
      simp at hmem
  · obtain ⟨⟨h1, h2, h3, h4, h5, h6, h7⟩, h8⟩ := hre
    have hmc := mapConv_ok (fun c => fromType fuel env c) g (env t).constituents hc
    refine ⟨?_, by simpa using hne⟩
    simp [fromType, h1, h2, h3, h4, h5, h6, h7, h8, hsym, hu, hmc]
  · obtain ⟨⟨h1, h2, h3, h4, h5, h6, h7⟩, h8⟩ := hre
    have hmc := mapConv_ok (fun c => fromType fuel env c) g (env t).constituents hc
    refine ⟨?_, by simpa using hne⟩
    simp [fromType, h1, h2, h3, h4, h5, h6, h7, h8, hsym, hu, hi, hmc]
  · have h1 := signatureNodes_ok (fun c => fromType fuel env c) g sigs hs
    refine ⟨?_, by simpa using hlen⟩
    rcases sigs with _ | ⟨s1, _ | ⟨s2, rest⟩⟩
    · simp at hlen
    · simp at hlen
    · simp only [getNodeFromCallSignatures, h1]
      simp

/-- Witness for the amended C9: a two-constituent union is nonempty. -/
theorem claim_C9_witness :
    fromType 2 unionWitnessEnv 0 = some (.ok (.union [.string, .number]))
    ∧ ([Node.string, Node.number] : List Node) ≠ [] :=
  (claim_C9_amended 1 unionWitnessEnv 0
      (fun c => if c = 1 then .string else .number)).2.1
    (by refine ⟨⟨?_, ?_, ?_, ?_, ?_, ?_, ?_⟩, ?_⟩ <;> rfl) rfl rfl
    (by intro c hc; simp [unionWitnessEnv] at hc; rcases hc with rfl | rfl <;> rfl)
    (by simp [unionWitnessEnv])

/-- Claim C10: the named-generic branches index the type-argument list with no
guard on its length: with symbol Array, ReadonlyArray or Set and no type
arguments, or with Record or Map and only one, classification fails with the
missing-type-argument runtime error — so the None branch of the total
type-argument access is reachable, and the failure is distinct from the
unsupported-type errors. -/
theorem claim_C10 (fuel : Nat) (env : Env) (t : TyId)
    (hre : reachesSymbolRule (env t)) :
    ((env t).symbol = some "Array" → (env t).typeArguments = [] →
      fromType (fuel + 1) env t = some (.error .missingTypeArgument))
    ∧ ((env t).symbol = some "ReadonlyArray" → (env t).typeArguments = [] →
        fromType (fuel + 1) env t = some (.error .missingTypeArgument))
    ∧ ((env t).symbol = some "Set" → (env t).typeArguments = [] →
        fromType (fuel + 1) env t = some (.error .missingTypeArgument))
    ∧ ((env t).symbol = some "Record" → ∀ (a0 : TyId) (k : Node),
        (env t).typeArguments = [a0] → fromType fuel env a0 = some (.ok k) →
        fromType (fuel + 1) env t = some (.error .missingTypeArgument))
    ∧ ((env t).symbol = some "Map" → ∀ (a0 : TyId) (k : Node),
        (env t).typeArguments = [a0] → fromType fuel env a0 = some (.ok k) →
        fromType (fuel + 1) env t = some (.error .missingTypeArgument))
    ∧ isUnsupportedTypeError .missingTypeArgument = false := by
  obtain ⟨⟨h1, h2, h3, h4, h5, h6, h7⟩, h8⟩ := hre
  refine ⟨fun hsym hta => ?_, fun hsym hta => ?_, fun hsym hta => ?_,
    fun hsym a0 k hta hf0 => ?_, fun hsym a0 k hta hf0 => ?_, rfl⟩
  · simp [fromType, h1, h2, h3, h4, h5, h6, h7, h8, hsym, hta]
  · simp [fromType, h1, h2, h3, h4, h5, h6, h7, h8, hsym, hta]
  · simp [fromType, h1, h2, h3, h4, h5, h6, h7, h8, hsym, hta]
  · simp [fromType, h1, h2, h3, h4, h5, h6, h7, h8, hsym, hta, hf0]
  · simp [fromType, h1, h2, h3, h4, h5, h6, h7, h8, hsym, hta, hf0]

/-- Witness for C10: Record with a single type argument crashes. -/
theorem claim_C10_witness :
    fromType 2 shortArgsEnv 0 = some (.error .missingTypeArgument) :=
  (claim_C10 1 shortArgsEnv 0
      (by refine ⟨⟨?_, ?_, ?_, ?_, ?_, ?_, ?_⟩, ?_⟩ <;> rfl)).2.2.2.1 rfl 1 .string rfl rfl

end Onetyped
